import Mathlib

/-!
# Shallow embedding of `internal/openSearch/openSearch.go` and `cmd/*.go`

The Go code talks to three things outside itself: the fake-data generator
(`faker.FakeData`), the JSON encoder (`json.Marshal`) and the HTTP client
(`req.Do`).  They are collected in `Env`, and every function of the package
becomes a function from a `World` (what has been printed and sent so far) to a
result and a new `World`.

* `int` is `Int`, `/` and `%` are the truncating `Int.tdiv` and `Int.tmod`
  of Go.  With `pageSize = 500` no intermediate value leaves the 64-bit range:
  `(i+1)*pageSize` is only computed for `i < count/pageSize`, where it is at
  most `count` (`InsertDocuments_progress_le_count`).
* `(string, error)` results are `Except GoError String`; a plain `error`
  result is `Option GoError` (`none` is `nil`).
* `res.String()` is a method of the client library; its value is the field
  `resBody` of `Response`.  What the library puts into it, the status in
  brackets and then the body, is `responseString`.
* `ctx` and `client` are handles that no function looks into; they are left
  out of the signatures.
-/

namespace openSearch

/-! ## Data model -/

/-- Go `error` values: those built here with `fmt.Errorf`, and those handed
back by a library (faker, json, the transport). -/
inductive GoError where
  | Errorf (msg : String)
  | Lib (msg : String)
  deriving DecidableEq, Repr

deriving instance DecidableEq for Except

/-- The `Error()` method. -/
def GoError.Error : GoError → String
  | .Errorf msg => msg
  | .Lib msg => msg

structure Tag where
  Name : String

structure Article where
  ID : String
  Title : String
  Body : String
  CreatedAt : String
  Tags : List Tag

/-- The struct `Document`; the two `float32` fields are kept as their 32 bits,
no function of the package computes with them. -/
structure Document where
  Email : String
  Password : String
  Name : String
  Age : Int
  Height : Int
  PhoneNumber : String
  Latitude : Nat
  Longitude : Nat
  Tags : List Tag
  Article : List Article

/-- The fields of `opensearchapi.SearchRequest` that `Search` sets (`Sort_` is
the field `Sort`, a reserved word here). -/
structure SearchRequest where
  Index : List String
  Query : String
  Sort_ : List String
  Size : Option Int
  RequestCache : Option Bool
  Pretty : Bool
  deriving DecidableEq, Repr

/-- The requests of `opensearchapi` that the package builds. -/
inductive Request where
  | Bulk (Body : String)
  | CatIndices (Format : String)
  | IndicesDelete (Index : List String)
  | IndicesCreate (Index : String) (Body : String)
  | IndicesPutSettings (Index : List String) (Body : String)
  | Search (req : SearchRequest)
  deriving DecidableEq, Repr

/-- What the code reads of an `opensearchapi.Response`: the field
`StatusCode`, and `resBody`, the value of the library method `res.String()`. -/
structure Response where
  StatusCode : Int
  resBody : String
  deriving DecidableEq, Repr

/-- An `opensearchapi.Response` as the client library holds it: the status
code, and what reading `r.Body` gives (the body, or the error of the read). -/
structure HTTPResponse where
  StatusCode : Int
  Body : Except GoError String

/-- The method `String()` of `opensearchapi.Response`, which belongs to the
client library and not to this repository: the status code and its reason
phrase in brackets, then, when the body is not empty, a blank and the body;
when the body cannot be read, a note of the error and nothing else.
`statusText` is `http.StatusText` of the standard library. -/
def responseString (statusText : Int → String) (r : HTTPResponse) : String :=
  match r.Body with
  | .error err => "<error reading response body: " ++ err.Error ++ ">"
  | .ok body =>
    "[" ++ toString r.StatusCode ++ " " ++ statusText r.StatusCode ++ "]"
      ++ (if body.utf8ByteSize > 0 then " " ++ body else "")

/-- The response as the functions of the package read it: `StatusCode` and
the value of `String()`. -/
def HTTPResponse.seen (statusText : Int → String) (r : HTTPResponse) : Response :=
  ⟨r.StatusCode, responseString statusText r⟩

/-- Writes to standard output. -/
inductive Output where
  | Println (s : String)
  | PrintfInserted (n total : Int)
  deriving DecidableEq, Repr

/-- The text a write puts on standard output;
`PrintfInserted n total` is `fmt.Printf("Inserted: %d/%d\n", n, total)`. -/
def Output.render : Output → String
  | .Println s => s ++ "\n"
  | .PrintfInserted n total => "Inserted: " ++ toString n ++ "/" ++ toString total ++ "\n"

/-- Observable steps of a run, in the order they happen.  `call n` marks the
entry into `insertFakeDocuments` with document count `n`. -/
inductive Event where
  | stdout (o : Output)
  | stderr (s : String)
  | call (count : Int)
  | request (r : Request)
  deriving DecidableEq, Repr

/-- The outside world: the `n`-th call of `faker.FakeData` (counted from 0),
`json.Marshal`, the answer to the `n`-th request sent (counted from 0), and
`opensearch.NewClient`. -/
structure Env where
  FakeData : Nat → Except GoError Document
  Marshal : Document → Except GoError String
  Do : Nat → Request → Except GoError Response
  NewClient : Option GoError

structure World where
  trace : List Event
  fakerCalls : Nat

def World.init : World := ⟨[], 0⟩

def World.emit (w : World) (e : Event) : World :=
  { w with trace := w.trace ++ [e] }

def Event.request? : Event → Option Request
  | .request r => some r
  | _ => none

def Event.call? : Event → Option Int
  | .call n => some n
  | _ => none

def Event.progress? : Event → Option (Int × Int)
  | .stdout (.PrintfInserted n total) => some (n, total)
  | _ => none

/-- The requests sent, oldest first. -/
def requestsOf (t : List Event) : List Request := t.filterMap Event.request?

/-- The document counts `insertFakeDocuments` was called with, oldest first. -/
def callsOf (t : List Event) : List Int := t.filterMap Event.call?

/-- The `(documentsLoadedSoFar, totalCount)` pairs printed, oldest first. -/
def progressOf (t : List Event) : List (Int × Int) := t.filterMap Event.progress?

/-- Runs `req.Do(ctx, client)`: the request goes out and the world answers. -/
def Do (env : Env) (r : Request) (w : World) : Except GoError Response × World :=
  (env.Do (requestsOf w.trace).length r, w.emit (.request r))

/-! ## `openSearch.go` -/

/-- `NewClient` hands three environment variables to `opensearch.NewClient`;
its callers see only whether that failed. -/
def NewClient (env : Env) : Option GoError := env.NewClient

/-- The literal create-action header of `makeFakeDocumentsJsonLD`. -/
def action (indexName : String) : String :=
  "\x7b\"create\":\x7b\"_index\":\"" ++ indexName ++ "\"\x7d\x7d"

/-- The loop `for i := 0; i < count; i++` of `makeFakeDocumentsJsonLD`, with
`n` iterations left; `i` and `count` are not used in the body.  An error
leaves the function at once. -/
def makeFakeDocumentsJsonLD.loop (env : Env) (act : String) :
    Nat → List String → World → Except GoError (List String) × World
  | 0, lines, w => (.ok lines, w)
  | n + 1, lines, w =>
    let w1 : World := { w with fakerCalls := w.fakerCalls + 1 }
    match env.FakeData w.fakerCalls with
    | .error err => (.error err, w1)
    | .ok doc =>
      match env.Marshal doc with
      | .error err => (.error err, w1)
      | .ok docJson =>
        makeFakeDocumentsJsonLD.loop env act n ((lines ++ [act]) ++ [docJson]) w1

/-- The slice `lines` at the `strings.Join`: the loop's lines and the empty
last line. -/
def makeFakeDocumentsJsonLD.lines (env : Env) (indexName : String) (count : Int) (w : World) :
    Except GoError (List String) × World :=
  match makeFakeDocumentsJsonLD.loop env (action indexName) (count - 0).toNat [] w with
  | (.error err, w1) => (.error err, w1)
  | (.ok lines, w1) => (.ok (lines ++ [""]), w1)

def makeFakeDocumentsJsonLD (env : Env) (indexName : String) (count : Int) (w : World) :
    Except GoError String × World :=
  match makeFakeDocumentsJsonLD.lines env indexName count w with
  | (.error err, w1) => (.error err, w1)
  | (.ok lines, w1) => (.ok (String.intercalate "\n" lines), w1)

def insertFakeDocuments (env : Env) (indexName : String) (count : Int) (w : World) :
    Except GoError String × World :=
  match makeFakeDocumentsJsonLD env indexName count (w.emit (.call count)) with
  | (.error err, w1) => (.error err, w1)
  | (.ok jsonLd, w1) =>
    match Do env (.Bulk jsonLd) w1 with
    | (.error err, w2) => (.error err, w2)
    | (.ok res, w2) =>
      let resBody := res.resBody
      if res.StatusCode ≠ 200 then
        (.error (.Errorf ("status_code: " ++ toString res.StatusCode ++ ", body: " ++ resBody)), w2)
      else
        (.ok resBody, w2)

/-- The loop `for i := 0; i < count/pageSize; i++` of `InsertDocuments` with
`n` iterations left.  `some err` is the early `return err`. -/
def InsertDocuments.loop (env : Env) (indexName : String) (count pageSize : Int) :
    Nat → Int → World → Option GoError × World
  | 0, _, w => (none, w)
  | n + 1, i, w =>
    match insertFakeDocuments env indexName pageSize w with
    | (.error err, w1) => (some err, w1)
    | (.ok _, w1) =>
      InsertDocuments.loop env indexName count pageSize n (i + 1)
        (w1.emit (.stdout (.PrintfInserted ((i + 1) * pageSize) count)))

def InsertDocuments (env : Env) (indexName : String) (count : Int) (w : World) :
    Option GoError × World :=
  let w0 := w.emit (.stdout (.Println "Inserting documents..."))
  let pageSize : Int := 500
  let remainder := count.tmod pageSize
  match InsertDocuments.loop env indexName count pageSize (count.tdiv pageSize - 0).toNat 0 w0 with
  | (some err, w1) => (some err, w1)
  | (none, w1) =>
    if remainder > 0 then
      match insertFakeDocuments env indexName remainder w1 with
      | (.error err, w2) => (some err, w2)
      | (.ok _, w2) => (none, w2.emit (.stdout (.Println "Insert completed")))
    else
      (none, w1.emit (.stdout (.Println "Insert completed")))

def ListIndexes (env : Env) (w : World) : Except GoError String × World :=
  match Do env (.CatIndices "json") w with
  | (.error err, w1) => (.error err, w1)
  | (.ok res, w1) =>
    let respBody := res.resBody
    if res.StatusCode ≠ 200 then
      (.error (.Errorf ("status_code: " ++ toString res.StatusCode ++ ", body: " ++ respBody)), w1)
    else
      (.ok respBody, w1)

def DeleteIndex (env : Env) (indexName : String) (w : World) : Except GoError String × World :=
  match Do env (.IndicesDelete [indexName]) w with
  | (.error err, w1) => (.error err, w1)
  | (.ok res, w1) =>
    let respBody := res.resBody
    if res.StatusCode ≠ 200 then
      (.error (.Errorf ("status_code: " ++ toString res.StatusCode ++ ", body: " ++ respBody)), w1)
    else
      (.ok respBody, w1)

def createIndexBody : String :=
  "\x7b\n  \"settings\": \x7b\n    \"index\": \x7b\n      \"refresh_interval\": \"-1\",\n      \"number_of_shards\": 1,\n      \"number_of_replicas\": 0\n    \x7d\n  \x7d\n\x7d\n"

def CreateIndexDisabledRefresh (env : Env) (indexName : String) (w : World) :
    Except GoError String × World :=
  match Do env (.IndicesCreate indexName createIndexBody) w with
  | (.error err, w1) => (.error err, w1)
  | (.ok res, w1) =>
    let respBody := res.resBody
    if res.StatusCode ≠ 200 then
      (.error (.Errorf ("status_code: " ++ toString res.StatusCode ++ ", body: " ++ respBody)), w1)
    else
      (.ok respBody, w1)

def enableRefreshBody : String :=
  "\x7b\n  \"index\": \x7b\n    \"refresh_interval\": \"1s\"\n  \x7d\n\x7d\n"

def disableRefreshBody : String :=
  "\x7b\n  \"index\": \x7b\n    \"refresh_interval\": \"-1\"\n  \x7d\n\x7d\n"

def EnableRefreshIndex (env : Env) (indexName : String) (w : World) :
    Except GoError String × World :=
  match Do env (.IndicesPutSettings [indexName] enableRefreshBody) w with
  | (.error err, w1) => (.error err, w1)
  | (.ok res, w1) =>
    let respBody := res.resBody
    if res.StatusCode ≠ 200 then
      (.error (.Errorf ("status_code: " ++ toString res.StatusCode ++ ", body: " ++ respBody)), w1)
    else
      (.ok respBody, w1)

def DisableRefreshIndex (env : Env) (indexName : String) (w : World) :
    Except GoError String × World :=
  match Do env (.IndicesPutSettings [indexName] disableRefreshBody) w with
  | (.error err, w1) => (.error err, w1)
  | (.ok res, w1) =>
    let respBody := res.resBody
    if res.StatusCode ≠ 200 then
      (.error (.Errorf ("status_code: " ++ toString res.StatusCode ++ ", body: " ++ respBody)), w1)
    else
      (.ok respBody, w1)

/-- The request `Search` builds. -/
def searchRequest (indexName : String) : SearchRequest :=
  { Index := [indexName]
    Query := "Age:[10 TO 20]"
    Sort_ := ["Age:asc"]
    Size := some 3
    RequestCache := some false
    Pretty := true }

def Search (env : Env) (indexName : String) (w : World) : Except GoError String × World :=
  match Do env (.Search (searchRequest indexName)) w with
  | (.error err, w1) => (.error err, w1)
  | (.ok res, w1) =>
    let respBody := res.resBody
    if res.StatusCode ≠ 200 then
      (.error (.Errorf ("status_code: " ++ toString res.StatusCode ++ ", body: " ++ respBody)), w1)
    else
      (.ok respBody, w1)

end openSearch

/-! ## `cmd/insertDocuments.go` -/

namespace insertDocuments

open openSearch

/-- Function `main`; the result is the exit code (`os.Exit(1)` after an
error).  `godotenv.Load()` only fills the process environment, which
`NewClient` reads. -/
def main (env : Env) (w : World) : Int × World :=
  match NewClient env with
  | some err => (1, w.emit (.stdout (.Println err.Error)))
  | none =>
    let indexName := "go-test-1"
    let count : Int := 10000
    match InsertDocuments env indexName count w with
    | (some err, w1) => (1, w1.emit (.stdout (.Println err.Error)))
    | (none, w1) => (0, w1)

end insertDocuments

/-! ## `cmd/search.go` -/

namespace search

open openSearch

/-- Function `main`; the result is the exit code.  The builtin `println`
writes to standard error. -/
def main (env : Env) (w : World) : Int × World :=
  match NewClient env with
  | some err => (1, w.emit (.stdout (.Println err.Error)))
  | none =>
    let indexName := "go-test-1"
    match Search env indexName w with
    | (.error err, w1) => (1, w1.emit (.stdout (.Println err.Error)))
    | (.ok respBody, w1) => (0, w1.emit (.stderr (respBody ++ "\n")))

end search

namespace openSearch

/-! ## Vocabulary of the statements -/

/-- A world in which everything works: every document serialises to `{}`
and every request is answered `200`. -/
def envOK : Env :=
  { FakeData := fun _ => .ok ⟨"", "", "", 0, 0, "", 0, 0, [], []⟩
    Marshal := fun _ => .ok "\x7b\x7d"
    Do := fun _ _ => .ok ⟨200, "[200 OK]"⟩
    NewClient := none }

/-- A world in which the first two bulk requests are answered `200` and every
later request is answered `429` with the text `busy`. -/
def envThirdFails : Env :=
  { envOK with Do := fun j _ => if j < 2 then .ok ⟨200, "[200 OK]"⟩ else .ok ⟨429, "busy"⟩ }

/-- The reason phrase `http.StatusText` gives for `200`, the one status the
world `envHits` answers with. -/
def statusTextSample (code : Int) : String :=
  if code = 200 then "OK" else ""

/-- A world in which every request is answered `200` with the body
`{"hits":[]}`. -/
def envHits : Env :=
  { envOK with
    Do := fun _ _ => .ok (HTTPResponse.seen statusTextSample ⟨200, .ok "\x7b\"hits\":[]\x7d"⟩) }

/-- What the `j`-th generated document serialises to: `faker.FakeData`, then
`json.Marshal`. -/
def docJson (env : Env) (j : Nat) : Except GoError String :=
  match env.FakeData j with
  | .error err => .error err
  | .ok doc => env.Marshal doc

/-- The documents generated from call number `c` of the generator on
serialise to `ds`, in this order. -/
def DocsAre (env : Env) (c : Nat) (ds : List String) : Prop :=
  ∀ j (h : j < ds.length), docJson env (c + j) = .ok (ds.get ⟨j, h⟩)

/-- The payload as the wire format describes it: for each document, in
order, the header line and the document line, each closed by a newline. -/
def bulkPayload (indexName : String) (ds : List String) : String :=
  String.join (ds.map fun d =>
    "\x7b\"create\":\x7b\"_index\":\"" ++ indexName ++ "\"\x7d\x7d" ++ "\n" ++ d ++ "\n")

/-- The text ends with a newline, and the character before it, if there is
one, is not a newline. -/
def endsWithOneNewline (s : String) : Bool :=
  match s.data.reverse with
  | '\n' :: '\n' :: _ => false
  | '\n' :: _ => true
  | _ => false

/-- The error a request function returns for an answer that is not a `200`:
a transport error as it is, a response as `status_code: ..., body: ...`. -/
def failureOf : Except GoError Response → GoError
  | .error err => err
  | .ok res => .Errorf ("status_code: " ++ toString res.StatusCode ++ ", body: " ++ res.resBody)

/-- The answer is a response with status `200`. -/
def isOK : Except GoError Response → Bool
  | .ok res => res.StatusCode == 200
  | .error _ => false

/-- The serialised documents number `c`, ..., `c + n - 1`. -/
def docsFrom (ds : Nat → String) (c n : Nat) : List String :=
  (List.range n).map fun j => ds (c + j)

/-- The steps of one page whose documents serialise: the call, then the bulk
request with the page's payload. -/
def pageEvents (indexName : String) (ds : Nat → String) (c : Nat) (n : Int) : List Event :=
  [.call n, .request (.Bulk (bulkPayload indexName (docsFrom ds c n.toNat)))]

/-- The steps of `m` full pages that all succeed, the first with loop index
`i` and documents from number `c`: call, request, progress line, in turn. -/
def fullPagesEvents (indexName : String) (ds : Nat → String) (count pageSize : Int) :
    Nat → Int → Nat → List Event
  | _, _, 0 => []
  | c, i, m + 1 =>
    pageEvents indexName ds c pageSize
      ++ [.stdout (.PrintfInserted ((i + 1) * pageSize) count)]
      ++ fullPagesEvents indexName ds count pageSize (c + pageSize.toNat) (i + 1) m

/-- The request is a settings update, the kind that switches refresh. -/
def Request.isPutSettings : Request → Bool
  | .IndicesPutSettings _ _ => true
  | _ => false

/-- What a step of a load can be: a line on standard output, a call of
`insertFakeDocuments` for 1 to 500 documents, or a bulk request whose body is
the payload of 1 to 500 documents. -/
def LoadStep (indexName : String) : Event → Prop
  | .stdout _ => True
  | .stderr _ => False
  | .call n => 1 ≤ n ∧ n ≤ 500
  | .request r => ∃ ds : List String, 1 ≤ ds.length ∧ ds.length ≤ 500
      ∧ r = .Bulk (bulkPayload indexName ds)

/-! ## The encoder -/

theorem intercalate_go_data (sep : String) (l : List String) (acc : String) :
    (String.intercalate.go acc sep l).data
      = acc.data ++ (l.map fun a => sep.data ++ a.data).flatten := by
  induction l generalizing acc with
  | nil => simp [String.intercalate.go]
  | cons a l ih => simp [String.intercalate.go, ih, List.append_assoc]

theorem intercalate_lines_data (act : String) (ds : List String) (acc : String) :
    (String.intercalate.go acc "\n" (ds.flatMap (fun d => [act, d]) ++ [""])).data
      = acc.data ++ ['\n']
        ++ (ds.map fun d => act.data ++ ['\n'] ++ d.data ++ ['\n']).flatten := by
  induction ds generalizing acc with
  | nil => simp [String.intercalate.go]
  | cons d ds ih =>
    show (String.intercalate.go acc "\n"
      (act :: d :: (ds.flatMap (fun d => [act, d]) ++ [""]))).data = _
    simp only [String.intercalate.go]
    rw [ih]
    simp [List.append_assoc]

/-- Joining the lines of `n` documents and the empty last line with newlines
gives the wire payload. -/
theorem join_lines (indexName : String) (ds : List String) :
    String.intercalate "\n" (ds.flatMap (fun d => [action indexName, d]) ++ [""])
      = bulkPayload indexName ds := by
  apply String.ext
  cases ds with
  | nil => simp [String.intercalate, String.intercalate.go, bulkPayload]
  | cons d ds =>
    show (String.intercalate "\n"
      (action indexName :: d :: (ds.flatMap (fun d => [action indexName, d]) ++ [""]))).data = _
    simp only [String.intercalate, String.intercalate.go]
    rw [intercalate_lines_data]
    simp [bulkPayload, action, List.append_assoc, Function.comp_def]

theorem docsAre_tail {env : Env} {c : Nat} {d : String} {ds : List String}
    (h : DocsAre env c (d :: ds)) : DocsAre env (c + 1) ds := by
  intro j hj
  have := h (j + 1) (by simpa using hj)
  simpa [Nat.add_assoc, Nat.add_comm 1 j] using this

theorem docsAre_head {env : Env} {c : Nat} {d : String} {ds : List String}
    (h : DocsAre env c (d :: ds)) : docJson env c = .ok d := by
  simpa using h 0 (by simp)

theorem docsAre_cons {env : Env} {c : Nat} {d : String} {ds : List String}
    (h0 : docJson env c = .ok d) (h : DocsAre env (c + 1) ds) : DocsAre env c (d :: ds) := by
  intro j hj
  cases j with
  | zero => simpa using h0
  | succ j =>
    have := h j (by simpa using hj)
    simpa [Nat.add_assoc, Nat.add_comm 1 j] using this

/-- The encoder loop neither prints nor sends. -/
theorem loop_trace (env : Env) (act : String) (n : Nat) (lines : List String) (w : World) :
    (makeFakeDocumentsJsonLD.loop env act n lines w).2.trace = w.trace := by
  induction n generalizing lines w with
  | zero => rfl
  | succ n ih =>
    simp only [makeFakeDocumentsJsonLD.loop]
    cases hf : env.FakeData w.fakerCalls with
    | error err => rfl
    | ok doc =>
      cases hm : env.Marshal doc with
      | error err => simp [hm]
      | ok dj => simp [hm, ih]

/-- When the documents serialise to `ds`, the loop appends a header line and
a document line for each of them. -/
theorem loop_ok (env : Env) (act : String) (ds : List String) (lines : List String) (w : World)
    (h : DocsAre env w.fakerCalls ds) :
    makeFakeDocumentsJsonLD.loop env act ds.length lines w
      = (.ok (lines ++ ds.flatMap fun d => [act, d]),
          { w with fakerCalls := w.fakerCalls + ds.length }) := by
  induction ds generalizing lines w with
  | nil => simp [makeFakeDocumentsJsonLD.loop]
  | cons d ds ih =>
    have h0 := docsAre_head h
    have ht := docsAre_tail h
    simp only [docJson] at h0
    simp only [List.length_cons, makeFakeDocumentsJsonLD.loop]
    cases hf : env.FakeData w.fakerCalls with
    | error err => simp [hf] at h0
    | ok doc =>
      simp only [hf] at h0
      simp only [h0]
      rw [ih _ _ ht]
      simp [List.append_assoc, Nat.add_assoc, Nat.add_comm 1]

/-- A loop that comes back with lines has serialised `n` documents, and its
lines are their header and document lines. -/
theorem loop_shape (env : Env) (act : String) (n : Nat) (lines : List String) (w : World)
    (res : List String) (w1 : World)
    (h : makeFakeDocumentsJsonLD.loop env act n lines w = (.ok res, w1)) :
    ∃ ds : List String, ds.length = n ∧ DocsAre env w.fakerCalls ds
      ∧ res = lines ++ ds.flatMap fun d => [act, d] := by
  induction n generalizing lines w with
  | zero =>
    refine ⟨[], rfl, ?_, ?_⟩
    · intro j hj
      simp at hj
    · simp only [makeFakeDocumentsJsonLD.loop, Prod.mk.injEq, Except.ok.injEq] at h
      simp [h.1]
  | succ n ih =>
    simp only [makeFakeDocumentsJsonLD.loop] at h
    cases hf : env.FakeData w.fakerCalls with
    | error err => simp [hf] at h
    | ok doc =>
      simp only [hf] at h
      cases hm : env.Marshal doc with
      | error err => simp [hm] at h
      | ok dj =>
        simp only [hm] at h
        obtain ⟨ds, hlen, hdocs, hres⟩ := ih _ _ h
        refine ⟨dj :: ds, by simp [hlen], ?_, ?_⟩
        · exact docsAre_cons (by simp [docJson, hf, hm]) hdocs
        · simp [hres, List.append_assoc]

/-- The encoder neither prints nor sends, whatever it returns. -/
theorem makeFakeDocumentsJsonLD_trace (env : Env) (indexName : String) (count : Int) (w : World) :
    (makeFakeDocumentsJsonLD env indexName count w).2.trace = w.trace := by
  have h := loop_trace env (action indexName) (count - 0).toNat [] w
  simp only [makeFakeDocumentsJsonLD, makeFakeDocumentsJsonLD.lines]
  rcases hl : makeFakeDocumentsJsonLD.loop env (action indexName) (count - 0).toNat [] w
    with ⟨r, w1⟩
  rw [hl] at h
  cases r <;> simpa using h

theorem lines_ok (env : Env) (indexName : String) (ds : List String) (w : World)
    (h : DocsAre env w.fakerCalls ds) :
    makeFakeDocumentsJsonLD.lines env indexName ds.length w
      = (.ok (ds.flatMap (fun d => [action indexName, d]) ++ [""]),
          { w with fakerCalls := w.fakerCalls + ds.length }) := by
  simp [makeFakeDocumentsJsonLD.lines, loop_ok env _ ds [] w h]

theorem makeFakeDocumentsJsonLD_ok (env : Env) (indexName : String) (ds : List String)
    (w : World) (h : DocsAre env w.fakerCalls ds) :
    makeFakeDocumentsJsonLD env indexName ds.length w
      = (.ok (bulkPayload indexName ds), { w with fakerCalls := w.fakerCalls + ds.length }) := by
  simp [makeFakeDocumentsJsonLD, lines_ok env indexName ds w h, join_lines]

/-- A payload the encoder returns is the wire payload of `count` documents. -/
theorem makeFakeDocumentsJsonLD_shape (env : Env) (indexName : String) (count : Int) (w : World)
    (p : String) (w1 : World)
    (h : makeFakeDocumentsJsonLD env indexName count w = (.ok p, w1)) :
    ∃ ds : List String, ds.length = count.toNat ∧ DocsAre env w.fakerCalls ds
      ∧ p = bulkPayload indexName ds := by
  simp only [makeFakeDocumentsJsonLD, makeFakeDocumentsJsonLD.lines] at h
  rcases hl : makeFakeDocumentsJsonLD.loop env (action indexName) (count - 0).toNat [] w
    with ⟨r, w2⟩
  rw [hl] at h
  cases r with
  | error err => simp at h
  | ok res =>
    obtain ⟨ds, hlen, hdocs, hres⟩ := loop_shape env _ _ _ _ _ _ hl
    refine ⟨ds, by simpa using hlen, hdocs, ?_⟩
    simp only [Prod.mk.injEq, Except.ok.injEq] at h
    rw [← h.1, hres, List.nil_append, join_lines]

/-! ## One page -/

theorem docsAre_docsFrom {env : Env} {ds : Nat → String} (hdocs : ∀ j, docJson env j = .ok (ds j))
    (c n : Nat) : DocsAre env c (docsFrom ds c n) := by
  intro j hj
  simp [docsFrom, hdocs]

theorem requestsOf_append (t u : List Event) :
    requestsOf (t ++ u) = requestsOf t ++ requestsOf u := by
  simp [requestsOf]

theorem callsOf_append (t u : List Event) : callsOf (t ++ u) = callsOf t ++ callsOf u := by
  simp [callsOf]

theorem progressOf_append (t u : List Event) :
    progressOf (t ++ u) = progressOf t ++ progressOf u := by
  simp [progressOf]

/-- One page whose documents serialise to `ds`: the call and the request are
recorded, and the result is decided by the answer to the request. -/
theorem insertFakeDocuments_docs (env : Env) (indexName : String) (ds : List String) (w : World)
    (h : DocsAre env w.fakerCalls ds) :
    insertFakeDocuments env indexName ds.length w
      = ((match env.Do (requestsOf w.trace).length (.Bulk (bulkPayload indexName ds)) with
          | .error err => .error err
          | .ok res =>
            if res.StatusCode ≠ 200 then
              .error (.Errorf ("status_code: " ++ toString res.StatusCode ++ ", body: "
                ++ res.resBody))
            else .ok res.resBody),
         ⟨w.trace ++ [.call ds.length, .request (.Bulk (bulkPayload indexName ds))],
          w.fakerCalls + ds.length⟩) := by
  have h1 : DocsAre env (w.emit (.call ds.length)).fakerCalls ds := h
  simp only [insertFakeDocuments, makeFakeDocumentsJsonLD_ok env indexName ds _ h1, Do]
  simp only [World.emit, requestsOf_append, List.append_assoc, List.singleton_append]
  have hr : requestsOf [Event.call (ds.length : Int)] = [] := rfl
  rw [hr, List.append_nil]
  cases env.Do (requestsOf w.trace).length (.Bulk (bulkPayload indexName ds)) with
  | error err => rfl
  | ok res =>
    by_cases hs : res.StatusCode = 200 <;> simp [hs]

/-- One page, whatever the world does: the call is recorded, and then either
nothing is sent and the page fails, or one bulk request is sent whose body is
the payload of `count` documents. -/
theorem insertFakeDocuments_shape (env : Env) (indexName : String) (count : Int) (w : World) :
    ((insertFakeDocuments env indexName count w).2.trace = w.trace ++ [.call count]
        ∧ ∃ err, (insertFakeDocuments env indexName count w).1 = .error err)
    ∨ ∃ ds : List String, ds.length = count.toNat ∧
        (insertFakeDocuments env indexName count w).2.trace
          = w.trace ++ [.call count, .request (.Bulk (bulkPayload indexName ds))] := by
  have ht := makeFakeDocumentsJsonLD_trace env indexName count (w.emit (.call count))
  rcases hm : makeFakeDocumentsJsonLD env indexName count (w.emit (.call count)) with ⟨r, w1⟩
  rw [hm] at ht
  cases r with
  | error err =>
    left
    simp only [insertFakeDocuments, hm]
    exact ⟨by simpa [World.emit] using ht, err, rfl⟩
  | ok p =>
    right
    obtain ⟨ds, hlen, -, hp⟩ := makeFakeDocumentsJsonLD_shape env indexName count _ p w1 hm
    refine ⟨ds, hlen, ?_⟩
    have ht1 : w1.trace = w.trace ++ [.call count] := by simpa [World.emit] using ht
    simp only [insertFakeDocuments, hm, Do]
    cases env.Do (requestsOf w1.trace).length (.Bulk p) with
    | error err => simp [World.emit, ht1, hp]
    | ok res =>
      by_cases hs : res.StatusCode = 200 <;> simp [hs, World.emit, ht1, hp]

theorem insertFakeDocuments_page (env : Env) (indexName : String) (ds : Nat → String)
    (hdocs : ∀ j, docJson env j = .ok (ds j)) (n : Nat) (w : World) :
    insertFakeDocuments env indexName (n : Int) w
      = ((match env.Do (requestsOf w.trace).length
            (.Bulk (bulkPayload indexName (docsFrom ds w.fakerCalls n))) with
          | .error err => .error err
          | .ok res =>
            if res.StatusCode ≠ 200 then
              .error (.Errorf ("status_code: " ++ toString res.StatusCode ++ ", body: "
                ++ res.resBody))
            else .ok res.resBody),
         ⟨w.trace ++ pageEvents indexName ds w.fakerCalls n, w.fakerCalls + n⟩) := by
  have h := insertFakeDocuments_docs env indexName (docsFrom ds w.fakerCalls n) w
    (docsAre_docsFrom hdocs _ _)
  have hl : (docsFrom ds w.fakerCalls n).length = n := by simp [docsFrom]
  rw [hl] at h
  rw [h]
  simp [pageEvents]

/-- A page answered `200` returns without error. -/
theorem insertFakeDocuments_page_ok (env : Env) (indexName : String) (ds : Nat → String)
    (hdocs : ∀ j, docJson env j = .ok (ds j)) (n : Nat) (w : World)
    (hr : ∀ r, ∃ b, env.Do (requestsOf w.trace).length r = .ok ⟨200, b⟩) :
    ∃ b, insertFakeDocuments env indexName (n : Int) w
      = (.ok b, ⟨w.trace ++ pageEvents indexName ds w.fakerCalls n, w.fakerCalls + n⟩) := by
  obtain ⟨b, hb⟩ := hr (.Bulk (bulkPayload indexName (docsFrom ds w.fakerCalls n)))
  refine ⟨b, ?_⟩
  rw [insertFakeDocuments_page env indexName ds hdocs n w, hb]
  simp

/-- A page whose request is not answered `200` returns the failure. -/
theorem insertFakeDocuments_page_fail (env : Env) (indexName : String) (ds : Nat → String)
    (hdocs : ∀ j, docJson env j = .ok (ds j)) (n : Nat) (w : World)
    (out : Except GoError Response)
    (hr : ∀ r, env.Do (requestsOf w.trace).length r = out) (hout : isOK out = false) :
    insertFakeDocuments env indexName (n : Int) w
      = (.error (failureOf out),
          ⟨w.trace ++ pageEvents indexName ds w.fakerCalls n, w.fakerCalls + n⟩) := by
  rw [insertFakeDocuments_page env indexName ds hdocs n w, hr]
  cases out with
  | error err => rfl
  | ok res =>
    have hs : res.StatusCode ≠ 200 := by simpa [isOK] using hout
    simp [hs, failureOf]

theorem requestsOf_pageEvents (indexName : String) (ds : Nat → String) (c : Nat) (n : Int) :
    (requestsOf (pageEvents indexName ds c n)).length = 1 := rfl

theorem requestsOf_emit_stdout (w : World) (o : Output) :
    requestsOf (w.emit (.stdout o)).trace = requestsOf w.trace := by
  simp [World.emit, requestsOf, Event.request?]

/-! ## The page loop -/

theorem requestsOf_fullPagesEvents (indexName : String) (ds : Nat → String)
    (count pageSize : Int) (c : Nat) (i : Int) (m : Nat) :
    (requestsOf (fullPagesEvents indexName ds count pageSize c i m)).length = m := by
  induction m generalizing c i with
  | zero => rfl
  | succ m ih =>
    simp only [fullPagesEvents, requestsOf_append, List.length_append, ih,
      requestsOf_pageEvents]
    simp [requestsOf, Event.request?]
    omega

/-- When the documents serialise and the next `m` requests are answered
`200`, the loop runs `m` pages and falls through. -/
theorem loop_all_ok (env : Env) (indexName : String) (ds : Nat → String)
    (hdocs : ∀ j, docJson env j = .ok (ds j)) (count : Int) (p : Nat) (m : Nat) (i : Int)
    (w : World)
    (hresp : ∀ j, j < m → ∀ r, ∃ b,
      env.Do ((requestsOf w.trace).length + j) r = .ok ⟨200, b⟩) :
    InsertDocuments.loop env indexName count p m i w
      = (none, ⟨w.trace ++ fullPagesEvents indexName ds count p w.fakerCalls i m,
          w.fakerCalls + m * p⟩) := by
  induction m generalizing i w with
  | zero => simp [InsertDocuments.loop, fullPagesEvents]
  | succ m ih =>
    obtain ⟨b, hb⟩ := insertFakeDocuments_page_ok env indexName ds hdocs p w
      (by simpa using hresp 0 (Nat.succ_pos m))
    simp only [InsertDocuments.loop, hb]
    rw [ih]
    · simp [World.emit, fullPagesEvents, List.append_assoc, Nat.add_assoc, Nat.succ_mul,
        Nat.add_comm p]
    · intro j hj r
      simp only [requestsOf_emit_stdout, requestsOf_append, List.length_append,
        requestsOf_pageEvents]
      rw [Nat.add_assoc, Nat.add_comm 1 j]
      exact hresp (j + 1) (by omega) r

/-- When the documents serialise, the next `k` requests are answered `200`
and the one after is not, the loop runs `k + 1` pages and returns the failure
of the last. -/
theorem loop_fails_at (env : Env) (indexName : String) (ds : Nat → String)
    (hdocs : ∀ j, docJson env j = .ok (ds j)) (count : Int) (p : Nat) (k m : Nat) (hk : k < m)
    (i : Int) (w : World) (out : Except GoError Response)
    (hresp : ∀ j, j < k → ∀ r, ∃ b,
      env.Do ((requestsOf w.trace).length + j) r = .ok ⟨200, b⟩)
    (hbad : ∀ r, env.Do ((requestsOf w.trace).length + k) r = out) (hout : isOK out = false) :
    InsertDocuments.loop env indexName count p m i w
      = (some (failureOf out),
          ⟨w.trace ++ fullPagesEvents indexName ds count p w.fakerCalls i k
            ++ pageEvents indexName ds (w.fakerCalls + k * p) p,
           w.fakerCalls + (k + 1) * p⟩) := by
  induction k generalizing m i w with
  | zero =>
    obtain ⟨m, rfl⟩ : ∃ m1, m = m1 + 1 := ⟨m - 1, by omega⟩
    have h := insertFakeDocuments_page_fail env indexName ds hdocs p w out
      (by simpa using hbad) hout
    simp only [InsertDocuments.loop, h]
    simp [fullPagesEvents]
  | succ k ih =>
    obtain ⟨m, rfl⟩ : ∃ m1, m = m1 + 1 := ⟨m - 1, by omega⟩
    obtain ⟨b, hb⟩ := insertFakeDocuments_page_ok env indexName ds hdocs p w
      (by simpa using hresp 0 (Nat.succ_pos k))
    simp only [InsertDocuments.loop, hb]
    rw [ih m (by omega)]
    · simp [World.emit, fullPagesEvents, List.append_assoc, Nat.add_assoc, Nat.succ_mul,
        Nat.add_comm p, Nat.add_left_comm p]
    · intro j hj r
      simp only [requestsOf_emit_stdout, requestsOf_append, List.length_append,
        requestsOf_pageEvents]
      rw [Nat.add_assoc, Nat.add_comm 1 j]
      exact hresp (j + 1) (by omega) r
    · intro r
      simp only [requestsOf_emit_stdout, requestsOf_append, List.length_append,
        requestsOf_pageEvents]
      rw [Nat.add_assoc, Nat.add_comm 1 k]
      exact hbad r

theorem callsOf_fullPagesEvents (indexName : String) (ds : Nat → String)
    (count pageSize : Int) (c : Nat) (i : Int) (m : Nat) :
    callsOf (fullPagesEvents indexName ds count pageSize c i m) = List.replicate m pageSize := by
  induction m generalizing c i with
  | zero => rfl
  | succ m ih =>
    simp only [fullPagesEvents, callsOf_append, ih, List.replicate_succ]
    rfl

theorem progressOf_fullPagesEvents (indexName : String) (ds : Nat → String)
    (count pageSize : Int) (c : Nat) (i : Int) (m : Nat) :
    progressOf (fullPagesEvents indexName ds count pageSize c i m)
      = (List.range m).map fun (j : Nat) => ((i + (j : Int) + 1) * pageSize, count) := by
  induction m generalizing c i with
  | zero => rfl
  | succ m ih =>
    simp only [fullPagesEvents, progressOf_append, ih, List.range_succ_eq_map, List.map_cons,
      List.map_map]
    simp [progressOf, pageEvents, Event.progress?, Function.comp_def, Int.add_assoc,
      Int.add_comm 1]

theorem requestsOf_fullPagesEvents_eq (indexName : String) (ds : Nat → String)
    (count pageSize : Int) (c : Nat) (i : Int) (m : Nat) :
    requestsOf (fullPagesEvents indexName ds count pageSize c i m)
      = (List.range m).map fun j =>
          Request.Bulk (bulkPayload indexName (docsFrom ds (c + pageSize.toNat * j) pageSize.toNat)) := by
  induction m generalizing c i with
  | zero => rfl
  | succ m ih =>
    simp only [fullPagesEvents, requestsOf_append, ih, List.range_succ_eq_map, List.map_cons,
      List.map_map]
    simp [requestsOf, pageEvents, Event.request?, Function.comp_def, Nat.mul_succ,
      Nat.add_assoc, Nat.add_comm pageSize.toNat]

/-! ## `InsertDocuments` -/

/-- The whole run when the documents serialise and every request is answered
`200`, for any `count`. -/
theorem InsertDocuments_all_ok (env : Env) (indexName : String) (ds : Nat → String)
    (hdocs : ∀ j, docJson env j = .ok (ds j))
    (hresp : ∀ j r, ∃ b, env.Do j r = .ok ⟨200, b⟩) (count : Int) (w : World) :
    InsertDocuments env indexName count w
      = (none,
          ⟨w.trace ++ [.stdout (.Println "Inserting documents...")]
            ++ fullPagesEvents indexName ds count 500 w.fakerCalls 0 (count.tdiv 500).toNat
            ++ (if count.tmod 500 > 0 then
                  pageEvents indexName ds (w.fakerCalls + (count.tdiv 500).toNat * 500)
                    (count.tmod 500)
                else [])
            ++ [.stdout (.Println "Insert completed")],
           w.fakerCalls + (count.tdiv 500).toNat * 500 + (count.tmod 500).toNat⟩) := by
  have hl := loop_all_ok env indexName ds hdocs count 500 (count.tdiv 500).toNat 0
    (w.emit (.stdout (.Println "Inserting documents..."))) (fun j _ r => hresp _ r)
  simp only [Nat.cast_ofNat] at hl
  simp only [InsertDocuments, Int.sub_zero, hl]
  by_cases hrem : count.tmod 500 > 0
  · have hcast : ((count.tmod 500).toNat : Int) = count.tmod 500 :=
      Int.toNat_of_nonneg (Int.le_of_lt hrem)
    obtain ⟨b, hb⟩ := insertFakeDocuments_page_ok env indexName ds hdocs (count.tmod 500).toNat
      ⟨(w.emit (.stdout (.Println "Inserting documents..."))).trace
          ++ fullPagesEvents indexName ds count 500
            (w.emit (.stdout (.Println "Inserting documents..."))).fakerCalls 0
            (count.tdiv 500).toNat,
        (w.emit (.stdout (.Println "Inserting documents..."))).fakerCalls
          + (count.tdiv 500).toNat * 500⟩ (fun r => hresp _ r)
    rw [hcast] at hb
    simp only [hrem, if_true, hb]
    simp [World.emit, List.append_assoc]
  · simp [hrem, World.emit, List.append_assoc]
    omega

/-- For a count that is not negative, Go's `/` and `%` by `500` are the
floor quotient and the remainder. -/
theorem tdiv_tmod_of_nonneg (count : Int) (h : 0 ≤ count) :
    count.tdiv 500 = count / 500 ∧ count.tmod 500 = count % 500 :=
  ⟨Int.tdiv_eq_ediv h (by decide), Int.tmod_eq_emod h (by decide)⟩

/-- For a negative count, Go's `/` and `%` by `500` are not positive. -/
theorem tdiv_tmod_of_neg (count : Int) (h : count < 0) :
    count.tdiv 500 ≤ 0 ∧ count.tmod 500 ≤ 0 := by
  have hq : 0 ≤ (-count).tdiv 500 := Int.tdiv_nonneg (by omega) (by decide)
  have hr : 0 ≤ (-count).tmod 500 := Int.tmod_nonneg 500 (by omega)
  have hd := Int.tmod_def (-count) 500
  have hd2 := Int.tmod_def count 500
  have hn : (-count).tdiv 500 = -(count.tdiv 500) := Int.neg_tdiv count 500
  constructor <;> omega

/-- The run when the documents serialise, the first `k` requests are
answered `200` and the next is not, page `k + 1` being one of the pages. -/
theorem InsertDocuments_fails_at (env : Env) (indexName : String) (ds : Nat → String)
    (hdocs : ∀ j, docJson env j = .ok (ds j)) (count : Int) (w : World) (k : Nat)
    (hk : (k : Int) * 500 < count) (out : Except GoError Response)
    (hresp : ∀ j, j < k → ∀ r, ∃ b,
      env.Do ((requestsOf w.trace).length + j) r = .ok ⟨200, b⟩)
    (hbad : ∀ r, env.Do ((requestsOf w.trace).length + k) r = out) (hout : isOK out = false) :
    InsertDocuments env indexName count w
      = (some (failureOf out),
          ⟨w.trace ++ [.stdout (.Println "Inserting documents...")]
            ++ fullPagesEvents indexName ds count 500 w.fakerCalls 0 k
            ++ pageEvents indexName ds (w.fakerCalls + k * 500)
                (if (k : Int) < count / 500 then 500 else count % 500),
           w.fakerCalls + k * 500
             + (if (k : Int) < count / 500 then 500 else (count % 500).toNat)⟩) := by
  have hc : 0 ≤ count := by omega
  obtain ⟨hq, hr⟩ := tdiv_tmod_of_nonneg count hc
  have hr0 : (requestsOf (w.emit (.stdout (.Println "Inserting documents..."))).trace).length
      = (requestsOf w.trace).length := by rw [requestsOf_emit_stdout]
  by_cases hfull : (k : Int) < count / 500
  · have hl := loop_fails_at env indexName ds hdocs count 500 k (count / 500).toNat
      (by omega) 0 (w.emit (.stdout (.Println "Inserting documents..."))) out
      (by rw [hr0]; exact hresp) (by rw [hr0]; exact hbad) hout
    simp only [Nat.cast_ofNat] at hl
    simp only [InsertDocuments, Int.sub_zero, hq, hl, hfull, if_true]
    simp [World.emit, List.append_assoc, Nat.succ_mul, Nat.add_assoc]
  · have hkq : (count / 500).toNat = k := by omega
    have hrem : count % 500 > 0 := by omega
    have hl := loop_all_ok env indexName ds hdocs count 500 (count / 500).toNat 0
      (w.emit (.stdout (.Println "Inserting documents...")))
      (by rw [hr0, hkq]; exact hresp)
    simp only [Nat.cast_ofNat] at hl
    have hcast : ((count % 500).toNat : Int) = count % 500 :=
      Int.toNat_of_nonneg (Int.le_of_lt hrem)
    have hf := insertFakeDocuments_page_fail env indexName ds hdocs (count % 500).toNat
      ⟨(w.emit (.stdout (.Println "Inserting documents..."))).trace
          ++ fullPagesEvents indexName ds count 500
            (w.emit (.stdout (.Println "Inserting documents..."))).fakerCalls 0
            (count / 500).toNat,
        (w.emit (.stdout (.Println "Inserting documents..."))).fakerCalls
          + (count / 500).toNat * 500⟩ out
      (by
        intro r
        simp only [requestsOf_append, List.length_append, requestsOf_fullPagesEvents, hr0, hkq]
        exact hbad r) hout
    rw [hcast] at hf
    simp only [InsertDocuments, Int.sub_zero, hq, hr, hl, hrem, if_true, hf, hfull, if_false]
    simp [World.emit, List.append_assoc, hkq]

/-! ## What a load can do, whatever the world does -/

/-- One page for 1 to 500 documents adds only load steps. -/
theorem insertFakeDocuments_steps (env : Env) (indexName : String) (n : Int) (h1 : 1 ≤ n)
    (h2 : n ≤ 500) (w : World) :
    ∃ new, (insertFakeDocuments env indexName n w).2.trace = w.trace ++ new
      ∧ ∀ e ∈ new, LoadStep indexName e := by
  rcases insertFakeDocuments_shape env indexName n w with ⟨ht, -⟩ | ⟨ds, hlen, ht⟩
  · refine ⟨[.call n], ht, ?_⟩
    intro e he
    simp only [List.mem_singleton] at he
    subst he
    exact ⟨h1, h2⟩
  · refine ⟨[.call n, .request (.Bulk (bulkPayload indexName ds))], ht, ?_⟩
    intro e he
    simp only [List.mem_cons, List.mem_singleton, List.not_mem_nil, or_false] at he
    rcases he with rfl | rfl
    · exact ⟨h1, h2⟩
    · exact ⟨ds, by omega, by omega, rfl⟩

/-- The page loop adds only load steps. -/
theorem loop_steps (env : Env) (indexName : String) (count : Int) (m : Nat) (i : Int)
    (w : World) :
    ∃ new, (InsertDocuments.loop env indexName count 500 m i w).2.trace = w.trace ++ new
      ∧ ∀ e ∈ new, LoadStep indexName e := by
  induction m generalizing i w with
  | zero => exact ⟨[], by simp [InsertDocuments.loop], by simp⟩
  | succ m ih =>
    obtain ⟨new1, ht1, hs1⟩ := insertFakeDocuments_steps env indexName 500 (by decide)
      (by decide) w
    rcases hres : insertFakeDocuments env indexName 500 w with ⟨r, w1⟩
    rw [hres] at ht1
    simp only [InsertDocuments.loop, hres]
    cases r with
    | error err => exact ⟨new1, ht1, hs1⟩
    | ok b =>
      obtain ⟨new2, ht2, hs2⟩ := ih (i + 1)
        (w1.emit (.stdout (.PrintfInserted ((i + 1) * 500) count)))
      refine ⟨new1 ++ [.stdout (.PrintfInserted ((i + 1) * 500) count)] ++ new2, ?_, ?_⟩
      · simp only at ht1
        rw [ht2]
        simp [World.emit, ht1, List.append_assoc]
      · intro e he
        simp only [List.mem_append, List.mem_singleton] at he
        rcases he with (he | rfl) | he
        · exact hs1 e he
        · trivial
        · exact hs2 e he

/-- A load adds only load steps: for every `count`, negative ones included,
and every behaviour of the generator, the encoder and the server. -/
theorem InsertDocuments_steps (env : Env) (indexName : String) (count : Int) (w : World) :
    ∃ new, (InsertDocuments env indexName count w).2.trace = w.trace ++ new
      ∧ ∀ e ∈ new, LoadStep indexName e := by
  obtain ⟨new1, ht1, hs1⟩ := loop_steps env indexName count (count.tdiv 500 - 0).toNat 0
    (w.emit (.stdout (.Println "Inserting documents...")))
  rcases hl : InsertDocuments.loop env indexName count 500 (count.tdiv 500 - 0).toNat 0
    (w.emit (.stdout (.Println "Inserting documents..."))) with ⟨r, w1⟩
  rw [hl] at ht1
  simp only at ht1
  simp only [InsertDocuments, hl]
  have hstep0 : ∀ e ∈ [Event.stdout (.Println "Inserting documents...")] ++ new1,
      LoadStep indexName e := by
    intro e he
    simp only [List.mem_append, List.mem_singleton] at he
    rcases he with rfl | he
    · trivial
    · exact hs1 e he
  cases r with
  | some err =>
    exact ⟨[.stdout (.Println "Inserting documents...")] ++ new1,
      by simp [ht1, World.emit, List.append_assoc], hstep0⟩
  | none =>
    by_cases hrem : count.tmod 500 > 0
    · have hlt : count.tmod 500 < 500 := Int.tmod_lt_of_pos count (by decide)
      obtain ⟨new2, ht2, hs2⟩ := insertFakeDocuments_steps env indexName (count.tmod 500)
        (by omega) (by omega) w1
      rcases hres : insertFakeDocuments env indexName (count.tmod 500) w1 with ⟨r2, w2⟩
      rw [hres] at ht2
      simp only at ht2
      simp only [hrem, if_true, hres]
      cases r2 with
      | error err =>
        refine ⟨[.stdout (.Println "Inserting documents...")] ++ new1 ++ new2, ?_, ?_⟩
        · simp [ht2, ht1, World.emit, List.append_assoc]
        · intro e he
          rw [List.mem_append] at he
          rcases he with he | he
          · exact hstep0 e he
          · exact hs2 e he
      | ok b =>
        refine ⟨[.stdout (.Println "Inserting documents...")] ++ new1 ++ new2
          ++ [.stdout (.Println "Insert completed")], ?_, ?_⟩
        · simp [ht2, ht1, World.emit, List.append_assoc]
        · intro e he
          simp only [List.mem_append, List.mem_singleton] at he
          rcases he with ((he | he) | he) | rfl
          · exact hstep0 e (by simp [he])
          · exact hstep0 e (by simp [he])
          · exact hs2 e he
          · trivial
    · refine ⟨[.stdout (.Println "Inserting documents...")] ++ new1
        ++ [.stdout (.Println "Insert completed")], ?_, ?_⟩
      · simp [hrem, ht1, World.emit, List.append_assoc]
      · intro e he
        rw [List.mem_append] at he
        rcases he with he | he
        · exact hstep0 e he
        · simp only [List.mem_singleton] at he
          subst he
          trivial

/-! ## The shape of a payload -/

theorem bulkPayload_data (indexName : String) (ds : List String) :
    (bulkPayload indexName ds).data
      = (ds.map fun d => (action indexName).data ++ '\n' :: (d.data ++ ['\n'])).flatten := by
  simp [bulkPayload, action, Function.comp_def, List.append_assoc]

/-- The payload of at least one document ends with a newline. -/
theorem bulkPayload_last (indexName : String) (ds : List String) (h : ds ≠ []) :
    (bulkPayload indexName ds).data.getLast? = some '\n' := by
  obtain ⟨l, d, rfl⟩ : ∃ l d, ds = l ++ [d] :=
    ⟨_, _, (List.dropLast_append_getLast h).symm⟩
  · rw [bulkPayload_data]
    have hsplit : ((l ++ [d]).map fun d =>
          (action indexName).data ++ '\n' :: (d.data ++ ['\n'])).flatten
        = ((l.map fun d => (action indexName).data ++ '\n' :: (d.data ++ ['\n'])).flatten
            ++ ((action indexName).data ++ '\n' :: d.data)) ++ ['\n'] := by
      simp [List.append_assoc]
    rw [hsplit, List.getLast?_concat]

theorem bulkPayload_ne_empty (indexName : String) (ds : List String) (h : ds ≠ []) :
    bulkPayload indexName ds ≠ "" := by
  intro he
  have := bulkPayload_last indexName ds h
  rw [he] at this
  simp at this

/-- When the last document ends with a closing brace, the payload ends with
one newline and no more. -/
theorem bulkPayload_one_newline (indexName : String) (ds : List String) (h : ds ≠ [])
    (hjson : ∀ d ∈ ds, ∃ p : String, d = p ++ "\x7d") :
    endsWithOneNewline (bulkPayload indexName ds) = true := by
  obtain ⟨l, d, rfl⟩ : ∃ l d, ds = l ++ [d] :=
    ⟨_, _, (List.dropLast_append_getLast h).symm⟩
  · obtain ⟨p, rfl⟩ := hjson d (by simp)
    simp [endsWithOneNewline, bulkPayload_data, List.reverse_append]

theorem lines_length (act : String) (ds : List String) :
    (ds.flatMap fun d => [act, d]).length = 2 * ds.length := by
  induction ds with
  | nil => rfl
  | cons d ds ih =>
    rw [List.flatMap_cons, List.length_append, ih, List.length_cons, List.length_cons,
      List.length_cons, List.length_nil]
    omega

/-! ## The claims about the encoder -/

/-- C2: for every index name and every sequence `ds` of serialised
documents produced inside `makeFakeDocumentsJsonLD` (none included), the
payload returned is the concatenation, in document order, of
`header ++ "\n" ++ d ++ "\n"`, the header being the literal
`{"create":{"_index":"<indexName>"}}`: one header line right before each
document line. -/
theorem C2_payload_is_header_document_pairs (env : Env) (indexName : String)
    (ds : List String) (w : World) (hdocs : DocsAre env w.fakerCalls ds) :
    (makeFakeDocumentsJsonLD env indexName ds.length w).1
      = .ok (String.join (ds.map fun d =>
          "\x7b\"create\":\x7b\"_index\":\"" ++ indexName ++ "\"\x7d\x7d" ++ "\n" ++ d ++ "\n")) := by
  rw [makeFakeDocumentsJsonLD_ok env indexName ds w hdocs]
  rfl

theorem C2_witness :
    (makeFakeDocumentsJsonLD envOK "go-test-1" 2 World.init).1
      = .ok (String.join (["\x7b\x7d", "\x7b\x7d"].map fun d =>
          "\x7b\"create\":\x7b\"_index\":\"" ++ "go-test-1" ++ "\"\x7d\x7d" ++ "\n" ++ d ++ "\n")) :=
  C2_payload_is_header_document_pairs envOK "go-test-1" ["\x7b\x7d", "\x7b\x7d"] World.init
    (by
      intro j hj
      have hj2 : j < 2 := hj
      interval_cases j <;> rfl)

/-- C3, as stated, fails for no documents: the payload is then the empty
text, which has no trailing newline. -/
theorem C3_counterexample :
    (makeFakeDocumentsJsonLD envOK "go-test-1" 0 World.init).1 = .ok ""
      ∧ endsWithOneNewline "" = false := by
  decide

/-- C3, amended: the lines joined into the payload are, for every number
of documents, one header line and one document line per document, in order,
and one empty last line; for at least one document, each ending with a
closing brace as `json.Marshal` writes it, the payload ends with exactly one
newline; for no document the payload is empty. -/
theorem C3_lines_and_trailing_newline (env : Env) (indexName : String) (ds : List String)
    (w : World) (hdocs : DocsAre env w.fakerCalls ds)
    (hjson : ∀ d ∈ ds, ∃ p : String, d = p ++ "\x7d") :
    (makeFakeDocumentsJsonLD.lines env indexName ds.length w).1
        = .ok (ds.flatMap (fun d => [action indexName, d]) ++ [""])
      ∧ (ds.flatMap (fun d => [action indexName, d]) ++ [""]).length = 2 * ds.length + 1
      ∧ ∃ payload, (makeFakeDocumentsJsonLD env indexName ds.length w).1 = .ok payload
          ∧ (ds ≠ [] → endsWithOneNewline payload = true)
          ∧ (ds = [] → payload = "") := by
  refine ⟨by rw [lines_ok env indexName ds w hdocs], ?_, bulkPayload indexName ds,
    by rw [makeFakeDocumentsJsonLD_ok env indexName ds w hdocs], ?_, ?_⟩
  · rw [List.length_append, lines_length]
    rfl
  · intro hne
    exact bulkPayload_one_newline indexName ds hne hjson
  · rintro rfl
    rfl

theorem C3_witness :
    (makeFakeDocumentsJsonLD.lines envOK "go-test-1" 2 World.init).1
        = .ok (["\x7b\x7d", "\x7b\x7d"].flatMap (fun d => [action "go-test-1", d]) ++ [""])
      ∧ (["\x7b\x7d", "\x7b\x7d"].flatMap (fun d => [action "go-test-1", d]) ++ [""]).length
          = 2 * 2 + 1
      ∧ ∃ payload, (makeFakeDocumentsJsonLD envOK "go-test-1" 2 World.init).1 = .ok payload
          ∧ (["\x7b\x7d", "\x7b\x7d"] ≠ [] → endsWithOneNewline payload = true)
          ∧ (["\x7b\x7d", "\x7b\x7d"] = [] → payload = "") :=
  C3_lines_and_trailing_newline envOK "go-test-1" ["\x7b\x7d", "\x7b\x7d"] World.init
    (by
      intro j hj
      have hj2 : j < 2 := hj
      interval_cases j <;> rfl)
    (by
      intro d hd
      simp only [List.mem_cons, List.mem_singleton, List.not_mem_nil, or_false, or_self] at hd
      exact ⟨"\x7b", by rw [hd]; rfl⟩)

/-! ## The claims about the load -/

/-- C10: for every integer `count`, positive, zero or negative, and
whatever the generator, the encoder and the server do, every call of
`insertFakeDocuments` made by `InsertDocuments` passes a document count `n`
with `1 ≤ n ≤ 500` (so never 0), and every request sent is a bulk request
whose body is not empty and ends with a newline. -/
theorem C10_every_page_has_1_to_500_documents (env : Env) (indexName : String) (count : Int)
    (w : World) :
    ∃ new, (InsertDocuments env indexName count w).2.trace = w.trace ++ new
      ∧ (∀ n ∈ callsOf new, 1 ≤ n ∧ n ≤ 500)
      ∧ (∀ r ∈ requestsOf new, ∃ body, r = .Bulk body ∧ body ≠ ""
          ∧ body.data.getLast? = some '\n') := by
  obtain ⟨new, ht, hs⟩ := InsertDocuments_steps env indexName count w
  refine ⟨new, ht, ?_, ?_⟩
  · intro n hn
    simp only [callsOf, List.mem_filterMap] at hn
    obtain ⟨e, he, hen⟩ := hn
    cases e with
    | call m =>
      simp only [Event.call?, Option.some.injEq] at hen
      subst hen
      exact hs _ he
    | stdout o => simp [Event.call?] at hen
    | stderr t => simp [Event.call?] at hen
    | request r => simp [Event.call?] at hen
  · intro r hr
    simp only [requestsOf, List.mem_filterMap] at hr
    obtain ⟨e, he, her⟩ := hr
    cases e with
    | request r1 =>
      simp only [Event.request?, Option.some.injEq] at her
      subst her
      obtain ⟨ds, h1, -, rfl⟩ := hs _ he
      have hne : ds ≠ [] := by
        intro h0
        simp [h0] at h1
      exact ⟨_, rfl, bulkPayload_ne_empty indexName ds hne, bulkPayload_last indexName ds hne⟩
    | stdout o => simp [Event.request?] at her
    | stderr t => simp [Event.request?] at her
    | call m => simp [Event.request?] at her

/-- C8, as stated, fails: for `count = -1` the load returns `nil`, not an
error. -/
theorem C8_counterexample : (InsertDocuments envOK "go-test-1" (-1) World.init).1 = none := by
  decide

/-- C8, amended: for every negative `count`, `InsertDocuments` makes no
network call and no call of `insertFakeDocuments`, prints its first and last
line, and returns `nil`: a negative count is not rejected. -/
theorem C8_negative_count_is_an_empty_load (env : Env) (indexName : String) (count : Int)
    (w : World) (hneg : count < 0) :
    InsertDocuments env indexName count w
      = (none, ⟨w.trace ++ [.stdout (.Println "Inserting documents..."),
                  .stdout (.Println "Insert completed")], w.fakerCalls⟩)
      ∧ requestsOf (InsertDocuments env indexName count w).2.trace = requestsOf w.trace := by
  obtain ⟨hq, hr⟩ := tdiv_tmod_of_neg count hneg
  have hm : (count.tdiv 500 - 0).toNat = 0 := by omega
  have hrem : ¬ count.tmod 500 > 0 := by omega
  have hrun : InsertDocuments env indexName count w
      = (none, ⟨w.trace ++ [.stdout (.Println "Inserting documents..."),
                  .stdout (.Println "Insert completed")], w.fakerCalls⟩) := by
    simp only [InsertDocuments, hm, InsertDocuments.loop]
    simp [hrem, World.emit]
  refine ⟨hrun, ?_⟩
  rw [hrun]
  simp [requestsOf, Event.request?]

theorem C8_witness :
    InsertDocuments envOK "go-test-1" (-1) World.init
      = (none, ⟨World.init.trace ++ [.stdout (.Println "Inserting documents..."),
                  .stdout (.Println "Insert completed")], World.init.fakerCalls⟩)
      ∧ requestsOf (InsertDocuments envOK "go-test-1" (-1) World.init).2.trace
          = requestsOf World.init.trace :=
  C8_negative_count_is_an_empty_load envOK "go-test-1" (-1) World.init (by decide)

/-! ## The claim about `Search` -/

/-- `Search` sends its one request and hands back what `res.String()` gives:
as the result for status 200, inside the error text otherwise. -/
theorem Search_returns_String (env : Env) (indexName : String) (w : World) (res : Response)
    (hres : env.Do (requestsOf w.trace).length
      (.Search ⟨[indexName], "Age:[10 TO 20]", ["Age:asc"], some 3, some false, true⟩)
        = .ok res) :
    (Search env indexName w).2.trace
        = w.trace ++ [.request
            (.Search ⟨[indexName], "Age:[10 TO 20]", ["Age:asc"], some 3, some false, true⟩)]
      ∧ (if res.StatusCode = 200 then
          (Search env indexName w).1 = .ok res.resBody
        else
          (Search env indexName w).1 = .error (.Errorf
            ("status_code: " ++ toString res.StatusCode ++ ", body: " ++ res.resBody))) := by
  have hreq : searchRequest indexName
      = ⟨[indexName], "Age:[10 TO 20]", ["Age:asc"], some 3, some false, true⟩ := rfl
  simp only [Search, Do, hreq, hres]
  by_cases hs : res.StatusCode = 200 <;> simp [hs, World.emit]

/-- A text of no bytes has no characters. -/
theorem length_eq_zero_of_no_bytes (s : String) (h : ¬ s.utf8ByteSize > 0) : s.length = 0 := by
  cases s with
  | mk cs =>
    cases cs with
    | nil => rfl
    | cons c cs =>
      have hc := Char.utf8Size_pos c
      simp only [String.utf8ByteSize, String.utf8ByteSize.go] at h
      omega

/-- The rendering of a response whose body was read is never the body
itself: it is longer. -/
theorem responseString_ne_body (statusText : Int → String) (code : Int) (body : String) :
    responseString statusText ⟨code, .ok body⟩ ≠ body := by
  intro h
  have hlen := congrArg String.length h
  simp only [responseString] at hlen
  by_cases hb : body.utf8ByteSize > 0
  · simp only [hb, if_true, String.length_append] at hlen
    have h1 : ("[" : String).length = 1 := rfl
    have h2 : (" " : String).length = 1 := rfl
    omega
  · simp only [hb, if_false, String.length_append] at hlen
    have h1 : ("[" : String).length = 1 := rfl
    have h0 : ("" : String).length = 0 := rfl
    have hbody := length_eq_zero_of_no_bytes body hb
    omega

/-- C9, as stated, fails: when the server answers 200 with the body
`{"hits":[]}`, `Search` returns `[200 OK] {"hits":[]}`, not the body
unmodified. -/
theorem C9_counterexample :
    (Search envHits "go-test-1" World.init).1 = .ok "[200 OK] \x7b\"hits\":[]\x7d"
      ∧ (Search envHits "go-test-1" World.init).1 ≠ .ok "\x7b\"hits\":[]\x7d" := by
  decide

/-- C9, amended: for every index name and every response of the server
(status `code`, body `body`), `Search` sends exactly one request, with filter
`Age:[10 TO 20]`, sort `Age:asc`, size 3 and the request cache off.  What it
hands back is not the body but the rendering `res.String()` of the client
library, `[<code> <reason phrase>]` followed, when the body is not empty, by a
blank and the body: for status 200 that rendering and no error, for any other
status the error `status_code: <code>, body: <rendering>`.  In no case is the
result the body itself. -/
theorem C9_search_returns_rendering (env : Env) (statusText : Int → String)
    (indexName : String) (w : World) (code : Int) (body : String)
    (hres : env.Do (requestsOf w.trace).length
      (.Search ⟨[indexName], "Age:[10 TO 20]", ["Age:asc"], some 3, some false, true⟩)
        = .ok (HTTPResponse.seen statusText ⟨code, .ok body⟩)) :
    (Search env indexName w).2.trace
        = w.trace ++ [.request
            (.Search ⟨[indexName], "Age:[10 TO 20]", ["Age:asc"], some 3, some false, true⟩)]
      ∧ (if code = 200 then
          (Search env indexName w).1
            = .ok ("[" ++ toString code ++ " " ++ statusText code ++ "]"
                ++ (if body.utf8ByteSize > 0 then " " ++ body else ""))
        else
          (Search env indexName w).1 = .error (.Errorf
            ("status_code: " ++ toString code ++ ", body: "
              ++ ("[" ++ toString code ++ " " ++ statusText code ++ "]"
                ++ (if body.utf8ByteSize > 0 then " " ++ body else "")))))
      ∧ (Search env indexName w).1 ≠ .ok body := by
  obtain ⟨htrace, hval⟩ := Search_returns_String env indexName w _ hres
  have hne := responseString_ne_body statusText code body
  refine ⟨htrace, ?_, ?_⟩
  · by_cases hs : code = 200
    · simpa [HTTPResponse.seen, responseString, hs] using hval
    · simpa [HTTPResponse.seen, responseString, hs] using hval
  · by_cases hs : code = 200
    · have h1 : (Search env indexName w).1
          = .ok (responseString statusText ⟨code, .ok body⟩) := by
        simpa [HTTPResponse.seen, hs] using hval
      rw [h1]
      intro heq
      exact hne (Except.ok.inj heq)
    · have h1 : (Search env indexName w).1 = .error (.Errorf
          ("status_code: " ++ toString code ++ ", body: "
            ++ responseString statusText ⟨code, .ok body⟩)) := by
        simpa [HTTPResponse.seen, hs] using hval
      rw [h1]
      intro heq
      cases heq

theorem C9_witness :
    (Search envHits "go-test-1" World.init).2.trace
        = World.init.trace ++ [.request
            (.Search ⟨["go-test-1"], "Age:[10 TO 20]", ["Age:asc"], some 3, some false, true⟩)]
      ∧ (if (200 : Int) = 200 then
          (Search envHits "go-test-1" World.init).1
            = .ok ("[" ++ toString (200 : Int) ++ " " ++ statusTextSample 200 ++ "]"
                ++ (if ("\x7b\"hits\":[]\x7d" : String).utf8ByteSize > 0 then
                      " " ++ "\x7b\"hits\":[]\x7d" else ""))
        else
          (Search envHits "go-test-1" World.init).1 = .error (.Errorf
            ("status_code: " ++ toString (200 : Int) ++ ", body: "
              ++ ("[" ++ toString (200 : Int) ++ " " ++ statusTextSample 200 ++ "]"
                ++ (if ("\x7b\"hits\":[]\x7d" : String).utf8ByteSize > 0 then
                      " " ++ "\x7b\"hits\":[]\x7d" else "")))))
      ∧ (Search envHits "go-test-1" World.init).1 ≠ .ok "\x7b\"hits\":[]\x7d" :=
  C9_search_returns_rendering envHits statusTextSample "go-test-1" World.init 200
    "\x7b\"hits\":[]\x7d" rfl

/-! ## The claims about the pages of a load -/

theorem callsOf_pageEvents (indexName : String) (ds : Nat → String) (c : Nat) (n : Int) :
    callsOf (pageEvents indexName ds c n) = [n] := rfl

theorem requestsOf_pageEvents_eq (indexName : String) (ds : Nat → String) (c : Nat) (n : Int) :
    requestsOf (pageEvents indexName ds c n)
      = [.Bulk (bulkPayload indexName (docsFrom ds c n.toNat))] := rfl

theorem progressOf_pageEvents (indexName : String) (ds : Nat → String) (c : Nat) (n : Int) :
    progressOf (pageEvents indexName ds c n) = [] := rfl

/-- C1: for every `count ≥ 0`, when every document serialises and every
bulk request is answered `200`, `InsertDocuments` returns `nil` after
submitting, in this order, `count / 500` (floor) pages of exactly 500
documents and then one page of `count % 500` documents, left out when
`count % 500 = 0`; the number of requests is the ceiling of `count / 500`
and the page sizes add up to `count`. -/
theorem C1_pages_of_a_load (env : Env) (indexName : String) (ds : Nat → String) (count : Int)
    (w : World) (hcount : 0 ≤ count) (hdocs : ∀ j, docJson env j = .ok (ds j))
    (hresp : ∀ j r, ∃ b, env.Do j r = .ok ⟨200, b⟩) :
    (InsertDocuments env indexName count w).1 = none
      ∧ ∃ new, (InsertDocuments env indexName count w).2.trace = w.trace ++ new
        ∧ callsOf new
            = List.replicate (count / 500).toNat 500
              ++ (if count % 500 = 0 then [] else [count % 500])
        ∧ requestsOf new
            = ((List.range (count / 500).toNat).map fun j =>
                Request.Bulk (bulkPayload indexName (docsFrom ds (w.fakerCalls + 500 * j) 500)))
              ++ (if count % 500 = 0 then [] else
                  [.Bulk (bulkPayload indexName
                    (docsFrom ds (w.fakerCalls + 500 * (count / 500).toNat)
                      (count % 500).toNat))])
        ∧ ((requestsOf new).length : Int) = (count + 499) / 500
        ∧ (callsOf new).sum = count := by
  obtain ⟨hq, hr⟩ := tdiv_tmod_of_nonneg count hcount
  have hrun := InsertDocuments_all_ok env indexName ds hdocs hresp count w
  rw [hq, hr] at hrun
  rw [hrun]
  have hcalls0 : ∀ s, callsOf [Event.stdout (.Println s)] = [] := fun _ => rfl
  have hreqs0 : ∀ s, requestsOf [Event.stdout (.Println s)] = [] := fun _ => rfl
  have hcalls : callsOf ([Event.stdout (.Println "Inserting documents...")]
        ++ (fullPagesEvents indexName ds count 500 w.fakerCalls 0 (count / 500).toNat
          ++ ((if count % 500 > 0 then
                pageEvents indexName ds (w.fakerCalls + (count / 500).toNat * 500) (count % 500)
              else [])
            ++ [.stdout (.Println "Insert completed")])))
      = List.replicate (count / 500).toNat 500
        ++ (if count % 500 = 0 then [] else [count % 500]) := by
    simp only [callsOf_append, hcalls0, callsOf_fullPagesEvents, List.nil_append,
      List.append_nil]
    by_cases h0 : count % 500 = 0
    · simp [h0, callsOf]
    · have hpos : count % 500 > 0 := by omega
      simp [h0, hpos, callsOf_pageEvents]
  have hreqs : requestsOf ([Event.stdout (.Println "Inserting documents...")]
        ++ (fullPagesEvents indexName ds count 500 w.fakerCalls 0 (count / 500).toNat
          ++ ((if count % 500 > 0 then
                pageEvents indexName ds (w.fakerCalls + (count / 500).toNat * 500) (count % 500)
              else [])
            ++ [.stdout (.Println "Insert completed")])))
      = ((List.range (count / 500).toNat).map fun j =>
            Request.Bulk (bulkPayload indexName (docsFrom ds (w.fakerCalls + 500 * j) 500)))
          ++ (if count % 500 = 0 then [] else
              [.Bulk (bulkPayload indexName
                (docsFrom ds (w.fakerCalls + 500 * (count / 500).toNat)
                  (count % 500).toNat))]) := by
    simp only [requestsOf_append, hreqs0, requestsOf_fullPagesEvents_eq, List.nil_append,
      List.append_nil]
    by_cases h0 : count % 500 = 0
    · simp [h0, requestsOf]
    · have hpos : count % 500 > 0 := by omega
      simp [h0, hpos, requestsOf_pageEvents_eq, Nat.mul_comm]
  refine ⟨rfl, _, by simp only [List.append_assoc], hcalls, hreqs, ?_, ?_⟩
  · rw [hreqs]
    by_cases h0 : count % 500 = 0
    · simp [h0]
      omega
    · simp [h0]
      omega
  · rw [hcalls]
    by_cases h0 : count % 500 = 0
    · simp [h0]
      omega
    · simp [h0]
      omega

theorem C1_witness :
    (InsertDocuments envOK "go-test-1" 750 World.init).1 = none
      ∧ ∃ new, (InsertDocuments envOK "go-test-1" 750 World.init).2.trace
          = World.init.trace ++ new
        ∧ callsOf new
            = List.replicate ((750 : Int) / 500).toNat 500
              ++ (if (750 : Int) % 500 = 0 then [] else [750 % 500])
        ∧ requestsOf new
            = ((List.range ((750 : Int) / 500).toNat).map fun j =>
                Request.Bulk (bulkPayload "go-test-1"
                  (docsFrom (fun _ => "\x7b\x7d") (World.init.fakerCalls + 500 * j) 500)))
              ++ (if (750 : Int) % 500 = 0 then [] else
                  [.Bulk (bulkPayload "go-test-1"
                    (docsFrom (fun _ => "\x7b\x7d")
                      (World.init.fakerCalls + 500 * ((750 : Int) / 500).toNat)
                      ((750 : Int) % 500).toNat))])
        ∧ ((requestsOf new).length : Int) = (750 + 499) / 500
        ∧ (callsOf new).sum = 750 :=
  C1_pages_of_a_load envOK "go-test-1" (fun _ => "\x7b\x7d") 750 World.init (by decide)
    (fun _ => rfl) (fun _ _ => ⟨_, rfl⟩)

/-- C4: for every `count` and every sequence of answers of the server, if
page `k` is the first whose request is not answered `200`, the earlier ones
being answered `200`, then `InsertDocuments` makes exactly `k` calls of
`insertFakeDocuments` and sends exactly `k` requests, and returns: for a
response, the error `status_code: <code>, body: <text of the response>`; for a
transport error, that error unchanged. -/
theorem C4_first_failure_ends_the_load (env : Env) (indexName : String) (ds : Nat → String)
    (count : Int) (w : World) (k : Nat) (out : Except GoError Response)
    (hdocs : ∀ j, docJson env j = .ok (ds j))
    (hk1 : 1 ≤ k) (hk : (k : Int) ≤ (count + 499) / 500)
    (hresp : ∀ j, j + 1 < k → ∀ r, ∃ b,
      env.Do ((requestsOf w.trace).length + j) r = .ok ⟨200, b⟩)
    (hbad : ∀ r, env.Do ((requestsOf w.trace).length + (k - 1)) r = out)
    (hout : isOK out = false) :
    (InsertDocuments env indexName count w).1
        = some (match out with
          | .error err => err
          | .ok res => .Errorf
              ("status_code: " ++ toString res.StatusCode ++ ", body: " ++ res.resBody))
      ∧ ∃ new, (InsertDocuments env indexName count w).2.trace = w.trace ++ new
        ∧ (requestsOf new).length = k
        ∧ (callsOf new).length = k := by
  have hk0 : ((k - 1 : Nat) : Int) * 500 < count := by omega
  have hrun := InsertDocuments_fails_at env indexName ds hdocs count w (k - 1) hk0 out
    (fun j hj r => hresp j (by omega) r) hbad hout
  rw [hrun]
  refine ⟨?_, [.stdout (.Println "Inserting documents...")]
      ++ (fullPagesEvents indexName ds count 500 w.fakerCalls 0 (k - 1)
        ++ pageEvents indexName ds (w.fakerCalls + (k - 1) * 500)
            (if ((k - 1 : Nat) : Int) < count / 500 then 500 else count % 500)),
    by simp only [List.append_assoc], ?_, ?_⟩
  · cases out <;> rfl
  · simp only [requestsOf_append, List.length_append, requestsOf_fullPagesEvents,
      requestsOf_pageEvents]
    have h0 : (requestsOf [Event.stdout (.Println "Inserting documents...")]).length = 0 := rfl
    omega
  · simp only [callsOf_append, List.length_append, callsOf_fullPagesEvents,
      callsOf_pageEvents, List.length_replicate, List.length_singleton]
    have h0 : (callsOf [Event.stdout (.Println "Inserting documents...")]).length = 0 := rfl
    omega

theorem C4_witness :
    (InsertDocuments envThirdFails "go-test-1" 2500 World.init).1
        = some (match (.ok ⟨429, "busy"⟩ : Except GoError Response) with
          | .error err => err
          | .ok res => .Errorf
              ("status_code: " ++ toString res.StatusCode ++ ", body: " ++ res.resBody))
      ∧ ∃ new, (InsertDocuments envThirdFails "go-test-1" 2500 World.init).2.trace
          = World.init.trace ++ new
        ∧ (requestsOf new).length = 3
        ∧ (callsOf new).length = 3 :=
  C4_first_failure_ends_the_load envThirdFails "go-test-1" (fun _ => "\x7b\x7d") 2500 World.init 3
    (.ok ⟨429, "busy"⟩) (fun _ => rfl) (by decide) (by decide)
    (fun j hj r => ⟨"[200 OK]", by
      have hj2 : j < 2 := by omega
      simp [envThirdFails, requestsOf, World.init, hj2]⟩)
    (fun r => by simp [envThirdFails, requestsOf, World.init])
    (by decide)

/-- C5, at `count = 750` with every page succeeding: two pages are
submitted, of 500 and of 250 documents, and the only progress line is
`500/750`; none follows the remainder page, so `750/750` is never printed. -/
theorem C5_no_progress_line_after_remainder_page :
    (InsertDocuments envOK "go-test-1" 750 World.init).1 = none
      ∧ callsOf (InsertDocuments envOK "go-test-1" 750 World.init).2.trace = [500, 250]
      ∧ progressOf (InsertDocuments envOK "go-test-1" 750 World.init).2.trace
          = [(500, 750)] := by
  have hrun := InsertDocuments_all_ok envOK "go-test-1" (fun _ => "\x7b\x7d") (fun _ => rfl)
    (fun _ _ => ⟨_, rfl⟩) 750 World.init
  have h1 : (750 : Int).tdiv 500 = 1 := by decide
  have h2 : (750 : Int).tmod 500 = 250 := by decide
  have h3 : (1 : Int).toNat = 1 := rfl
  rw [h1, h2, h3] at hrun
  rw [hrun]
  refine ⟨rfl, ?_, ?_⟩
  · simp only [callsOf_append, callsOf_fullPagesEvents, World.init]
    rfl
  · simp only [progressOf_append, progressOf_fullPagesEvents, World.init]
    rfl

/-- C6: for every `count` and every page `k` of the load (`1 ≤ k` and `k`
at most the ceiling of `count / 500`, which leaves only `count ≥ 1`), if page
`k` is the first whose request is not answered `200`, then the load returns
an error and the figures it has printed are `500, 1000, ..., (k-1)*500`, each
with `count`: none is larger than `(k-1)*500`, and the last one, or 0 when
no line was printed (`k = 1`), is `(k-1)*500`. -/
theorem C6_progress_when_page_k_fails (env : Env) (indexName : String) (ds : Nat → String)
    (count : Int) (w : World) (k : Nat) (out : Except GoError Response)
    (hdocs : ∀ j, docJson env j = .ok (ds j))
    (hk1 : 1 ≤ k) (hk : (k : Int) ≤ (count + 499) / 500)
    (hresp : ∀ j, j + 1 < k → ∀ r, ∃ b,
      env.Do ((requestsOf w.trace).length + j) r = .ok ⟨200, b⟩)
    (hbad : ∀ r, env.Do ((requestsOf w.trace).length + (k - 1)) r = out)
    (hout : isOK out = false) :
    (InsertDocuments env indexName count w).1 ≠ none
      ∧ ∃ new, (InsertDocuments env indexName count w).2.trace = w.trace ++ new
        ∧ progressOf new
            = (List.range (k - 1)).map (fun (j : Nat) => (((j : Int) + 1) * 500, count))
        ∧ (∀ p ∈ progressOf new, p.1 ≤ ((k : Int) - 1) * 500)
        ∧ ((progressOf new).map Prod.fst).getLast?.getD 0 = ((k : Int) - 1) * 500 := by
  have hk0 : ((k - 1 : Nat) : Int) * 500 < count := by omega
  have hrun := InsertDocuments_fails_at env indexName ds hdocs count w (k - 1) hk0 out
    (fun j hj r => hresp j (by omega) r) hbad hout
  rw [hrun]
  have hprog : progressOf ([Event.stdout (.Println "Inserting documents...")]
        ++ (fullPagesEvents indexName ds count 500 w.fakerCalls 0 (k - 1)
          ++ pageEvents indexName ds (w.fakerCalls + (k - 1) * 500)
              (if ((k - 1 : Nat) : Int) < count / 500 then 500 else count % 500)))
      = (List.range (k - 1)).map (fun (j : Nat) => (((j : Int) + 1) * 500, count)) := by
    simp only [progressOf_append, progressOf_fullPagesEvents, progressOf_pageEvents,
      List.append_nil, Int.zero_add]
    rfl
  refine ⟨by simp, _, by simp only [List.append_assoc], hprog, ?_, ?_⟩
  · rw [hprog]
    intro p hp
    simp only [List.mem_map, List.mem_range] at hp
    obtain ⟨j, hj, rfl⟩ := hp
    show ((j : Int) + 1) * 500 ≤ ((k : Int) - 1) * 500
    omega
  · rw [hprog]
    obtain ⟨m, rfl⟩ : ∃ m, k = m + 1 := ⟨k - 1, by omega⟩
    cases m with
    | zero => simp
    | succ m =>
      simp only [Nat.add_sub_cancel, List.range_succ, List.map_append, List.map_cons,
        List.map_nil, List.getLast?_concat, Option.getD_some]
      push_cast
      ring

theorem C6_witness :
    (InsertDocuments envThirdFails "go-test-1" 2500 World.init).1 ≠ none
      ∧ ∃ new, (InsertDocuments envThirdFails "go-test-1" 2500 World.init).2.trace
          = World.init.trace ++ new
        ∧ progressOf new
            = (List.range (3 - 1)).map (fun (j : Nat) => (((j : Int) + 1) * 500, (2500 : Int)))
        ∧ (∀ p ∈ progressOf new, p.1 ≤ (((3 : Nat) : Int) - 1) * 500)
        ∧ ((progressOf new).map Prod.fst).getLast?.getD 0 = (((3 : Nat) : Int) - 1) * 500 :=
  C6_progress_when_page_k_fails envThirdFails "go-test-1" (fun _ => "\x7b\x7d") 2500 World.init
    3 (.ok ⟨429, "busy"⟩) (fun _ => rfl) (by decide) (by decide)
    (fun j hj r => ⟨"[200 OK]", by
      have hj2 : j < 2 := by omega
      simp [envThirdFails, requestsOf, World.init, hj2]⟩)
    (fun r => by simp [envThirdFails, requestsOf, World.init])
    (by decide)

/-! ## The claim about the entry point -/

theorem steps_requests_bulk (indexName : String) (new : List Event)
    (hs : ∀ e ∈ new, LoadStep indexName e) : ∀ r ∈ requestsOf new, ∃ body, r = .Bulk body := by
  intro r hr
  simp only [requestsOf, List.mem_filterMap] at hr
  obtain ⟨e, he, her⟩ := hr
  cases e with
  | request r1 =>
    simp only [Event.request?, Option.some.injEq] at her
    subst her
    obtain ⟨ds, -, -, rfl⟩ := hs _ he
    exact ⟨_, rfl⟩
  | stdout o => simp [Event.request?] at her
  | stderr t => simp [Event.request?] at her
  | call m => simp [Event.request?] at her

/-- Every request the entry point sends is a bulk request. -/
theorem main_requests_bulk (env : Env) (w : World) :
    ∃ new, (insertDocuments.main env w).2.trace = w.trace ++ new
      ∧ ∀ r ∈ requestsOf new, ∃ body, r = .Bulk body := by
  cases hc : NewClient env with
  | some err =>
    refine ⟨[.stdout (.Println err.Error)], by simp [insertDocuments.main, hc, World.emit], ?_⟩
    intro r hr
    simp [requestsOf, Event.request?] at hr
  | none =>
    obtain ⟨new, ht, hs⟩ := InsertDocuments_steps env "go-test-1" 10000 w
    rcases hrun : InsertDocuments env "go-test-1" 10000 w with ⟨r, w1⟩
    rw [hrun] at ht
    simp only at ht
    cases r with
    | none =>
      exact ⟨new, by simp [insertDocuments.main, hc, hrun, ht],
        steps_requests_bulk "go-test-1" new hs⟩
    | some err =>
      refine ⟨new ++ [.stdout (.Println err.Error)],
        by simp [insertDocuments.main, hc, hrun, ht, World.emit], ?_⟩
      intro r hr
      rw [requestsOf_append] at hr
      have h0 : requestsOf [Event.stdout (.Println err.Error)] = [] := rfl
      rw [h0, List.append_nil] at hr
      exact steps_requests_bulk "go-test-1" new hs r hr

/-- C7, as stated, fails: in a run of the entry point in which everything
succeeds, the refresh-enable request is sent 0 times, not once, and no
settings request is sent at all, so no refresh-disable request either. -/
theorem C7_counterexample :
    (requestsOf (insertDocuments.main envOK World.init).2.trace).count
        (.IndicesPutSettings ["go-test-1"] enableRefreshBody) = 0
      ∧ (requestsOf (insertDocuments.main envOK World.init).2.trace).filter
          Request.isPutSettings = [] := by
  obtain ⟨new, ht, hb⟩ := main_requests_bulk envOK World.init
  rw [ht]
  simp only [World.init, List.nil_append]
  constructor
  · rw [List.count_eq_zero]
    intro hmem
    obtain ⟨body, hbody⟩ := hb _ hmem
    cases hbody
  · rw [List.filter_eq_nil_iff]
    intro r hr
    obtain ⟨body, rfl⟩ := hb r hr
    simp [Request.isPutSettings]

/-- C7, amended: the entry point sends no settings request at all, so
neither the refresh-disable nor the refresh-enable request, whatever the
outcome of the load: every request it sends is a bulk request.  Refresh is
switched only by `DisableRefreshIndex` and `EnableRefreshIndex`, each of which
sends one settings request (`refresh_interval` `-1`, and `1s`) when it is
called; the entry point calls neither. -/
theorem C7_entry_point_sends_no_settings_request (env : Env) (indexName : String) (w : World) :
    (∃ new, (insertDocuments.main env w).2.trace = w.trace ++ new
      ∧ (∀ r ∈ requestsOf new, ∃ body, r = .Bulk body)
      ∧ (∀ index body, Request.IndicesPutSettings index body ∉ requestsOf new))
    ∧ requestsOf (DisableRefreshIndex env indexName w).2.trace
        = requestsOf w.trace ++ [.IndicesPutSettings [indexName] disableRefreshBody]
    ∧ requestsOf (EnableRefreshIndex env indexName w).2.trace
        = requestsOf w.trace ++ [.IndicesPutSettings [indexName] enableRefreshBody] := by
  refine ⟨?_, ?_, ?_⟩
  · obtain ⟨new, ht, hb⟩ := main_requests_bulk env w
    refine ⟨new, ht, hb, ?_⟩
    intro index body hmem
    obtain ⟨b, hbody⟩ := hb _ hmem
    cases hbody
  · simp only [DisableRefreshIndex, Do]
    cases env.Do (requestsOf w.trace).length
        (.IndicesPutSettings [indexName] disableRefreshBody) with
    | error err => simp [World.emit, requestsOf, Event.request?]
    | ok res =>
      by_cases hs : res.StatusCode = 200 <;> simp [hs, World.emit, requestsOf, Event.request?]
  · simp only [EnableRefreshIndex, Do]
    cases env.Do (requestsOf w.trace).length
        (.IndicesPutSettings [indexName] enableRefreshBody) with
    | error err => simp [World.emit, requestsOf, Event.request?]
    | ok res =>
      by_cases hs : res.StatusCode = 200 <;> simp [hs, World.emit, requestsOf, Event.request?]

/-! ## No figure leaves the range of `int` -/

theorem progressOf_of_steps (env : Env) (indexName : String) (n : Int) (w : World) :
    ∃ new, (insertFakeDocuments env indexName n w).2.trace = w.trace ++ new
      ∧ progressOf new = [] := by
  rcases insertFakeDocuments_shape env indexName n w with ⟨ht, -⟩ | ⟨ds, -, ht⟩
  · exact ⟨_, ht, rfl⟩
  · exact ⟨_, ht, rfl⟩

/-- The figures the page loop prints are `(i+1)*500, ..., (i+m)*500` at
most, whatever the world does. -/
theorem loop_progress (env : Env) (indexName : String) (count : Int) (m : Nat) (i : Int)
    (w : World) :
    ∃ new, (InsertDocuments.loop env indexName count 500 m i w).2.trace = w.trace ++ new
      ∧ ∀ p ∈ progressOf new, ∃ j : Nat, j < m ∧ p = ((i + j + 1) * 500, count) := by
  induction m generalizing i w with
  | zero => exact ⟨[], by simp [InsertDocuments.loop], by simp [progressOf]⟩
  | succ m ih =>
    obtain ⟨new1, ht1, hp1⟩ := progressOf_of_steps env indexName 500 w
    rcases hres : insertFakeDocuments env indexName 500 w with ⟨r, w1⟩
    rw [hres] at ht1
    simp only at ht1
    simp only [InsertDocuments.loop, hres]
    cases r with
    | error err =>
      refine ⟨new1, ht1, ?_⟩
      intro p hp
      simp [hp1] at hp
    | ok b =>
      obtain ⟨new2, ht2, hp2⟩ := ih (i + 1)
        (w1.emit (.stdout (.PrintfInserted ((i + 1) * 500) count)))
      refine ⟨new1 ++ [.stdout (.PrintfInserted ((i + 1) * 500) count)] ++ new2, ?_, ?_⟩
      · rw [ht2]
        simp [World.emit, ht1, List.append_assoc]
      · intro p hp
        simp only [progressOf_append, hp1, List.nil_append, List.mem_append] at hp
        rcases hp with hp | hp
        · have h0 : progressOf [Event.stdout (.PrintfInserted ((i + 1) * 500) count)]
              = [((i + 1) * 500, count)] := rfl
          rw [h0, List.mem_singleton] at hp
          exact ⟨0, Nat.succ_pos m, by simp [hp]⟩
        · obtain ⟨j, hj, rfl⟩ := hp2 p hp
          refine ⟨j + 1, by omega, ?_⟩
          push_cast
          simp [Int.add_assoc, Int.add_comm 1]

/-- Every figure `InsertDocuments` prints lies between 1 and `count`, for
every `count` and whatever the world does: `(i+1)*pageSize` does not overflow
when `count` is an `int`. -/
theorem InsertDocuments_progress_le_count (env : Env) (indexName : String) (count : Int)
    (w : World) :
    ∃ new, (InsertDocuments env indexName count w).2.trace = w.trace ++ new
      ∧ ∀ p ∈ progressOf new, 0 < p.1 ∧ p.1 ≤ count ∧ p.2 = count := by
  obtain ⟨new1, ht1, hp1⟩ := loop_progress env indexName count (count.tdiv 500 - 0).toNat 0
    (w.emit (.stdout (.Println "Inserting documents...")))
  have hbound : ∀ p ∈ progressOf new1, 0 < p.1 ∧ p.1 ≤ count ∧ p.2 = count := by
    intro p hp
    obtain ⟨j, hj, rfl⟩ := hp1 p hp
    have hcount : 0 ≤ count := by
      by_contra hneg
      have := (tdiv_tmod_of_neg count (by omega)).1
      omega
    have hq := (tdiv_tmod_of_nonneg count hcount).1
    rw [hq] at hj
    refine ⟨?_, ?_, rfl⟩
    · show 0 < (0 + (j : Int) + 1) * 500
      omega
    · show (0 + (j : Int) + 1) * 500 ≤ count
      omega
  rcases hl : InsertDocuments.loop env indexName count 500 (count.tdiv 500 - 0).toNat 0
    (w.emit (.stdout (.Println "Inserting documents..."))) with ⟨r, w1⟩
  rw [hl] at ht1
  simp only at ht1
  simp only [InsertDocuments, hl]
  have hp0 : ∀ t, progressOf [Event.stdout (.Println t)] = [] := fun _ => rfl
  cases r with
  | some err =>
    refine ⟨[.stdout (.Println "Inserting documents...")] ++ new1,
      by simp [ht1, World.emit, List.append_assoc], ?_⟩
    intro p hp
    rw [progressOf_append, hp0, List.nil_append] at hp
    exact hbound p hp
  | none =>
    by_cases hrem : count.tmod 500 > 0
    · obtain ⟨new2, ht2, hp2⟩ := progressOf_of_steps env indexName (count.tmod 500) w1
      rcases hres : insertFakeDocuments env indexName (count.tmod 500) w1 with ⟨r2, w2⟩
      rw [hres] at ht2
      simp only at ht2
      simp only [hrem, if_true, hres]
      cases r2 with
      | error err =>
        refine ⟨[.stdout (.Println "Inserting documents...")] ++ new1 ++ new2,
          by simp [ht2, ht1, World.emit, List.append_assoc], ?_⟩
        intro p hp
        rw [progressOf_append, progressOf_append, hp0, hp2, List.nil_append,
          List.append_nil] at hp
        exact hbound p hp
      | ok b =>
        refine ⟨[.stdout (.Println "Inserting documents...")] ++ new1 ++ new2
          ++ [.stdout (.Println "Insert completed")],
          by simp [ht2, ht1, World.emit, List.append_assoc], ?_⟩
        intro p hp
        rw [progressOf_append, progressOf_append, progressOf_append, hp0, hp0, hp2,
          List.nil_append, List.append_nil, List.append_nil] at hp
        exact hbound p hp
    · refine ⟨[.stdout (.Println "Inserting documents...")] ++ new1
        ++ [.stdout (.Println "Insert completed")],
        by simp [hrem, ht1, World.emit, List.append_assoc], ?_⟩
      intro p hp
      rw [progressOf_append, progressOf_append, hp0, hp0, List.nil_append,
        List.append_nil] at hp
      exact hbound p hp

end openSearch
